import Mathlib

/-!
Verification of the Pharos DMG packaging utility (`create_pharos_dmg_gui.py`).

The development shallowly embeds the pure string logic of the script
(manufacturer extraction, queue/popup name derivation, driver filename
sanitization, catalog loading, technician-name handling) as executable Lean
functions over `List Char` / `String`, and the interactive `main` workflow as a
pure function from an environment record (file contents, prompt answers,
external-tool successes) to a record of the filesystem-visible effects and the
final outcome.  Python string primitives (`strip`, `split`, `replace`,
`endswith`) are embedded as the corresponding total functions on `List Char`;
the regular expressions of the script are hand-compiled to backtracking
matchers with the identical alternative order and greediness.
-/

namespace Pharos

/-! ### Python string primitives -/

/-- The whitespace class of Python `str.strip` / `str.split` (ASCII part). -/
def isWs (c : Char) : Bool :=
  c == ' ' || c == '\t' || c == '\n' || c == '\r' || c == '\x0b' || c == '\x0c'

def notWs (c : Char) : Bool := !(isWs c)

/-- Python `s.strip()`: remove leading and trailing whitespace. -/
def pyStrip (l : List Char) : List Char :=
  ((l.dropWhile isWs).reverse.dropWhile isWs).reverse

/-- Worker for `pySplitWs` with an accumulator holding the reversed current token. -/
def splitWsGo : List Char → List Char → List (List Char)
  | [], acc => if acc.isEmpty then [] else [acc.reverse]
  | c :: r, acc =>
    if isWs c then
      if acc.isEmpty then splitWsGo r [] else acc.reverse :: splitWsGo r []
    else splitWsGo r (c :: acc)

/-- Python `s.split()` (no argument): whitespace-delimited tokens, no empties. -/
def pySplitWs (l : List Char) : List (List Char) := splitWsGo l []

/-- Python `s.split(sep)` for a one-character separator (keeps empty parts). -/
def pySplitOnChar (sep : Char) : List Char → List (List Char)
  | [] => [[]]
  | c :: r =>
    if c == sep then [] :: pySplitOnChar sep r
    else
      match pySplitOnChar sep r with
      | [] => [[c]]
      | t :: ts => (c :: t) :: ts

/-- The character class `[A-Z]` of the script's regular expressions. -/
def isUpperA (c : Char) : Bool := 65 ≤ c.toNat && c.toNat ≤ 90

/-- The character class `[a-z]`. -/
def isLowerA (c : Char) : Bool := 97 ≤ c.toNat && c.toNat ≤ 122

/-- The character class `[a-zA-Z]`. -/
def isAlphaA (c : Char) : Bool := isUpperA c || isLowerA c

/-! ### `extract_manufacturer` (source lines 74-78)

`name = filename.replace(".PPD.gz", "").replace(".ppd.gz", "").replace(".gz", "")`
followed by
`re.match(r"^([A-Z]{2,}(?=[^a-z]|$)|[A-Z][a-z]+|[A-Z][a-zA-Z]+(?=[A-Z]))", name)`
and the fallback `name.split()[0]` (which raises `IndexError` when `name` has
no whitespace-delimited token; that failure is modelled as `none`). -/

/-- Embeds `s.replace(".PPD.gz", "")`: delete every occurrence, left to right. -/
def stripPPDgzU : List Char → List Char
  | '.' :: 'P' :: 'P' :: 'D' :: '.' :: 'g' :: 'z' :: r => stripPPDgzU r
  | c :: r => c :: stripPPDgzU r
  | [] => []

/-- Embeds `s.replace(".ppd.gz", "")`. -/
def stripPpdGzL : List Char → List Char
  | '.' :: 'p' :: 'p' :: 'd' :: '.' :: 'g' :: 'z' :: r => stripPpdGzL r
  | c :: r => c :: stripPpdGzL r
  | [] => []

/-- Embeds `s.replace(".gz", "")`. -/
def stripGz : List Char → List Char
  | '.' :: 'g' :: 'z' :: r => stripGz r
  | c :: r => c :: stripGz r
  | [] => []

/-- The suffix-removal chain of `extract_manufacturer`, in source order. -/
def residueOf (l : List Char) : List Char := stripGz (stripPpdGzL (stripPPDgzU l))

/-- The lookahead `(?=[^a-z]|$)`: at end of input, or next char not lowercase. -/
def lookNotLowerOrEnd : List Char → Bool
  | [] => true
  | c :: _ => !(isLowerA c)

/-- Greedy-with-backtracking matcher for `[A-Z]{2,}(?=[^a-z]|$)`: try the
repetition count from `k` down to `2`, first success wins. -/
def alt1Try (l : List Char) : Nat → Option (List Char)
  | 0 => none
  | 1 => none
  | k + 2 =>
    if lookNotLowerOrEnd (l.drop (k + 2)) then some (l.take (k + 2))
    else alt1Try l (k + 1)

/-- First regex alternative `[A-Z]{2,}(?=[^a-z]|$)` anchored at the start. -/
def alt1 (l : List Char) : Option (List Char) :=
  alt1Try l (l.takeWhile isUpperA).length

/-- Second regex alternative `[A-Z][a-z]+` anchored at the start (greedy, and
nothing follows it in the pattern, so no backtracking can occur). -/
def alt2 (l : List Char) : Option (List Char) :=
  match l with
  | [] => none
  | c :: r =>
    if isUpperA c && !(r.takeWhile isLowerA).isEmpty then
      some (c :: r.takeWhile isLowerA)
    else none

/-- The lookahead `(?=[A-Z])`. -/
def lookUpper : List Char → Bool
  | [] => false
  | c :: _ => isUpperA c

/-- Greedy-with-backtracking matcher for the `[a-zA-Z]+(?=[A-Z])` tail of the
third alternative: repetition count from `k` down to `1`. -/
def alt3Try (c : Char) (r : List Char) : Nat → Option (List Char)
  | 0 => none
  | k + 1 =>
    if lookUpper (r.drop (k + 1)) then some (c :: r.take (k + 1))
    else alt3Try c r k

/-- Third regex alternative `[A-Z][a-zA-Z]+(?=[A-Z])` anchored at the start. -/
def alt3 (l : List Char) : Option (List Char) :=
  match l with
  | [] => none
  | c :: r => if isUpperA c then alt3Try c r (r.takeWhile isAlphaA).length else none

/-- The whole anchored alternation, with Python's leftmost-alternative preference. -/
def regexMatch (l : List Char) : Option (List Char) :=
  match alt1 l with
  | some m => some m
  | none =>
    match alt2 l with
    | some m => some m
    | none => alt3 l

/-- `match.group(1) if match else name.split()[0]`; `none` = `IndexError`. -/
def matchStage (name : List Char) : Option (List Char) :=
  match regexMatch name with
  | some m => some m
  | none => (pySplitWs name).head?

/-- `extract_manufacturer` on character lists. -/
def extractCore (l : List Char) : Option (List Char) := matchStage (residueOf l)

/-- `extract_manufacturer` (source lines 74-78); `none` models the
`IndexError` raised by `name.split()[0]` on a token-free residue. -/
def extract_manufacturer (f : String) : Option String :=
  (extractCore f.data).map fun l => ⟨l⟩

/-! ### Basic facts about the matchers -/

theorem alt1Try_ne_nil (l : List Char) :
    ∀ (k : Nat) (m : List Char), alt1Try l k = some m → k ≤ l.length → m ≠ [] := by
  intro k
  induction k with
  | zero => intro m h _; simp [alt1Try] at h
  | succ j ih =>
    intro m h hle
    cases j with
    | zero => simp [alt1Try] at h
    | succ i =>
      rw [alt1Try] at h
      split at h
      · cases h
        intro hnil
        rcases List.take_eq_nil_iff.mp hnil with h0 | h0
        · omega
        · subst h0; simp at hle
      · exact ih m h (by omega)

theorem alt1_ne_nil {l m : List Char} (h : alt1 l = some m) : m ≠ [] :=
  alt1Try_ne_nil l _ m h ((List.takeWhile_prefix isUpperA).length_le)

theorem alt2_ne_nil {l m : List Char} (h : alt2 l = some m) : m ≠ [] := by
  unfold alt2 at h
  split at h
  · simp at h
  · split at h
    · cases h; simp
    · simp at h

theorem alt3Try_ne_nil {c : Char} {r : List Char} :
    ∀ (k : Nat) (m : List Char), alt3Try c r k = some m → m ≠ [] := by
  intro k
  induction k with
  | zero => intro m h; simp [alt3Try] at h
  | succ j ih =>
    intro m h
    rw [alt3Try] at h
    split at h
    · cases h; simp
    · exact ih m h

theorem alt3_ne_nil {l m : List Char} (h : alt3 l = some m) : m ≠ [] := by
  unfold alt3 at h
  split at h
  · simp at h
  · split at h
    · exact alt3Try_ne_nil _ m h
    · simp at h

theorem regexMatch_ne_nil {l m : List Char} (h : regexMatch l = some m) : m ≠ [] := by
  unfold regexMatch at h
  split at h
  · cases h; exact alt1_ne_nil (by assumption)
  · split at h
    · cases h; exact alt2_ne_nil (by assumption)
    · exact alt3_ne_nil h

theorem splitWsGo_cons (l : List Char) :
    ∀ acc : List Char, (acc ≠ [] ∨ ∃ c ∈ l, notWs c = true) →
      ∃ t ts, splitWsGo l acc = t :: ts ∧ t ≠ [] := by
  induction l with
  | nil =>
    intro acc h
    rcases h with h | h
    · refine ⟨acc.reverse, [], ?_, by simpa using h⟩
      simp [splitWsGo, List.isEmpty_iff, h]
    · simp at h
  | cons c r ih =>
    intro acc h
    by_cases hw : isWs c = true
    · by_cases ha : acc = []
      · subst ha
        have : ∃ d ∈ r, notWs d = true := by
          rcases h with h | ⟨d, hd, hnw⟩
          · exact absurd rfl h
          · rcases List.mem_cons.mp hd with rfl | hd
            · simp [notWs, hw] at hnw
            · exact ⟨d, hd, hnw⟩
        rcases ih [] (Or.inr this) with ⟨t, ts, hgo, ht⟩
        exact ⟨t, ts, by simp [splitWsGo, hw, hgo], ht⟩
      · refine ⟨acc.reverse, splitWsGo r [], ?_, by simpa using ha⟩
        simp [splitWsGo, hw, List.isEmpty_iff, ha]
    · rcases ih (c :: acc) (Or.inl (by simp)) with ⟨t, ts, hgo, ht⟩
      exact ⟨t, ts, by simp [splitWsGo, hw, hgo], ht⟩

/-! ### Claim theorems for manufacturer extraction -/

/-- C3: manufacturer extraction tries, in order, (a) a leading run of
two-or-more uppercase letters followed by a non-lowercase character or end of
string, else (b) a leading capitalized lowercase word, else (c) a leading
capitalized run followed by another uppercase letter, else (d) the first
whitespace-delimited token; `"HP_LaserJet_Pro.ppd.gz"` gives `"HP"` and
`"EpsonStylusC88.PPD.gz"` gives `"Epson"`. -/
theorem C3_manufacturer_alternatives :
    extract_manufacturer "HP_LaserJet_Pro.ppd.gz" = some "HP" ∧
    extract_manufacturer "EpsonStylusC88.PPD.gz" = some "Epson" ∧
    (∀ n m, alt1 n = some m → regexMatch n = some m) ∧
    (∀ n m, alt1 n = none → alt2 n = some m → regexMatch n = some m) ∧
    (∀ n, alt1 n = none → alt2 n = none → regexMatch n = alt3 n) ∧
    (∀ n, regexMatch n = none → matchStage n = (pySplitWs n).head?) := by
  refine ⟨by decide, by decide, ?_, ?_, ?_, ?_⟩
  · intro n m h; simp [regexMatch, h]
  · intro n m h1 h2; simp [regexMatch, h1, h2]
  · intro n h1 h2; simp [regexMatch, h1, h2]
  · intro n h; simp [matchStage, h]

theorem C3_manufacturer_alternatives_witness :
    alt1 "HPX".data = some "HPX".data ∧ regexMatch "HPX".data = some "HPX".data :=
  ⟨by decide, C3_manufacturer_alternatives.2.2.1 "HPX".data "HPX".data (by decide)⟩

/-- C6 counterexample: extraction is neither total nor idempotent on the
driver catalog.  The catalog filename `".gz"` (which ends in `".gz"`) makes
`name.split()[0]` raise `IndexError` (modelled as `none`), and on
`"ABcDeF.gz"` extraction gives `"ABcDe"`, whose re-extraction gives `"ABc"`,
not `"ABcDe"`. -/
theorem C6_counterexample :
    extract_manufacturer ".gz" = none ∧
    extract_manufacturer "ABcDeF.gz" = some "ABcDe" ∧
    extract_manufacturer "ABcDe" = some "ABc" ∧
    some ("ABc" : String) ≠ some "ABcDe" := by
  exact ⟨by decide, by decide, by decide, by decide⟩

/-- C6 amended: extraction is deterministic, and for every filename ending in
`".gz"` whose residue after compression-suffix removal still contains a
non-whitespace character, extraction terminates with a non-empty result;
unrestricted totality and idempotence fail (see the counterexample). -/
theorem C6_extraction_total_amended :
    (∀ f : List Char, ".gz".data.isSuffixOf f = true →
        (∃ c ∈ residueOf f, notWs c = true) →
        ∃ m, extractCore f = some m ∧ m ≠ []) ∧
    (∀ f : List Char, extractCore f = extractCore f) := by
  constructor
  · intro f _ hex
    unfold extractCore matchStage
    cases hr : regexMatch (residueOf f) with
    | some m => exact ⟨m, rfl, regexMatch_ne_nil hr⟩
    | none =>
      rcases splitWsGo_cons (residueOf f) [] (Or.inr hex) with ⟨t, ts, hgo, ht⟩
      exact ⟨t, by simp [pySplitWs, hgo], ht⟩
  · intro f; rfl

theorem C6_extraction_total_amended_witness :
    (".gz".data.isSuffixOf "HP.gz".data = true) ∧
    (∃ c ∈ residueOf "HP.gz".data, notWs c = true) ∧
    ∃ m, extractCore "HP.gz".data = some m ∧ m ≠ [] :=
  ⟨by decide, by decide,
    C6_extraction_total_amended.1 "HP.gz".data (by decide) (by decide)⟩

/-! ### Queue-name derivation (source lines 46-53 and 110-112) -/

/-- The separator class `[-_]` of the `YesAuth` pattern. -/
def sepChar (c : Char) : Bool := c == '-' || c == '_'

/-- Embeds `re.sub(r'\.dmg$', '', s, flags=re.IGNORECASE)`.  Python's `$`
also matches just before one final newline, so that case is included. -/
def stripDmgL (l : List Char) : List Char :=
  if ".dmg".data.isSuffixOf (l.map Char.toLower) then l.take (l.length - 4)
  else if ".dmg\n".data.isSuffixOf (l.map Char.toLower) then
    l.take (l.length - 5) ++ ['\n']
  else l

/-- The `(.+)$` tail of the `YesAuth` pattern applied to the remainder:
`.` excludes newlines, `+` is greedy, and `$` matches at the end or just
before one final newline. -/
def dotPlusDollar (r : List Char) : Option (List Char) :=
  let a := r.takeWhile fun c => !(c == '\n')
  if a.isEmpty then none
  else
    match r.drop a.length with
    | [] => some a
    | ['\n'] => some a
    | _ => none

/-- Embeds `re.match(r"^YesAuth[-_]([^-_]+)[-_](.+)$", name)`, returning
group 2.  `[^-_]+` consumes the maximal separator-free run (no shorter run
can be followed by a separator, so no backtracking arises). -/
def yesAuthMatch (name : List Char) : Option (List Char) :=
  if "YesAuth".data.isPrefixOf name then
    match name.drop 7 with
    | [] => none
    | s1 :: t =>
      if sepChar s1 then
        let u := t.takeWhile fun c => !(sepChar c)
        if u.isEmpty then none
        else
          match t.drop u.length with
          | [] => none
          | s2 :: r => if sepChar s2 then dotPlusDollar r else none
      else none
  else none

/-- `return m.group(2) if m else name`. -/
def yesAuthOrSelf (name : List Char) : List Char :=
  match yesAuthMatch name with
  | some rest => rest
  | none => name

/-- `extract_bare_queue` (source lines 46-53). -/
def extract_bare_queueL (l : List Char) : List Char := yesAuthOrSelf (stripDmgL l)

/-- `base_queue` (source line 110). -/
def base_queueS (q : String) : String := ⟨stripDmgL q.data⟩

/-- `bare_queue` (source line 111). -/
def bare_queueS (q : String) : String := ⟨extract_bare_queueL q.data⟩

/-- `popup_name` (source line 112). -/
def popup_nameS (q : String) : String := bare_queueS q ++ "_Popup"

/-! ### Driver filename sanitization (source lines 148-150) -/

/-- Embeds `s.replace(" ", "")`. -/
def removeSpaces : List Char → List Char
  | [] => []
  | c :: r => if c == ' ' then removeSpaces r else c :: removeSpaces r

/-- `driver_filename` (source line 148): append `.ppd` unless the selected
driver already ends with it case-insensitively. -/
def driver_filenameS (d : String) : String :=
  if ".ppd".data.isSuffixOf (d.data.map Char.toLower) then d else d ++ ".ppd"

/-- `sanitized_driver_filename` (source line 150). -/
def sanitized_driver_filenameS (d : String) : String :=
  ⟨removeSpaces (driver_filenameS d).data⟩

/-! ### Helper lemmas for case-insensitive suffixes and newline-free inputs -/

theorem toNat_ofNat_valid (n : Nat) (h : n < 55296) : (Char.ofNat n).toNat = n := by
  have hv : n.isValidChar := Or.inl (by omega)
  simp [Char.ofNat, hv, Char.toNat, Char.ofNatAux, UInt32.toNat]

theorem toLower_ne_newline (c : Char) (h : c ≠ '\n') : c.toLower ≠ '\n' := by
  intro hl
  unfold Char.toLower at hl
  simp only [] at hl
  by_cases hc : c.toNat ≥ 65 ∧ c.toNat ≤ 90
  · rw [if_pos hc] at hl
    have h2 := congrArg Char.toNat hl
    rw [toNat_ofNat_valid (c.toNat + 32) (by omega)] at h2
    have h3 : ('\n').toNat = 10 := by decide
    omega
  · rw [if_neg hc] at hl
    exact h hl

theorem noNL_map_toLower {q : List Char} (hq : '\n' ∉ q) :
    '\n' ∉ q.map Char.toLower := by
  intro hm
  rcases List.mem_map.mp hm with ⟨c, hc, he⟩
  exact toLower_ne_newline c (fun h => hq (h ▸ hc)) he

/-- The claim's wording of base-queue derivation: one trailing `.dmg`
removed case-insensitively. -/
def claimBaseQueue (q : List Char) : List Char :=
  if ".dmg".data.isSuffixOf (q.map Char.toLower) then q.take (q.length - 4) else q

/-- The claim's wording of bare-queue derivation: when the whole base queue
is `YesAuth` + separator + a non-empty separator-free planning-unit token +
separator + a non-empty rest, keep only the rest; otherwise the base queue. -/
def claimBareQueue (b : List Char) : List Char :=
  if "YesAuth".data.isPrefixOf b then
    match b.drop 7 with
    | [] => b
    | s1 :: t =>
      if sepChar s1 then
        let u := t.takeWhile fun c => !(sepChar c)
        if u.isEmpty then b
        else
          match t.drop u.length with
          | [] => b
          | s2 :: r => if sepChar s2 && !r.isEmpty then r else b
      else b
  else b

theorem stripDmg_eq_claim {q : List Char} (hq : '\n' ∉ q) :
    stripDmgL q = claimBaseQueue q := by
  unfold stripDmgL claimBaseQueue
  split
  · rfl
  · split
    · next hnl =>
      exfalso
      have hsub : (".dmg\n".data : List Char) <:+ q.map Char.toLower :=
        List.isSuffixOf_iff_suffix.mp hnl
      exact noNL_map_toLower hq (hsub.sublist.subset (by decide))
    · rfl

theorem noNL_stripDmg {q : List Char} (hq : '\n' ∉ q) : '\n' ∉ stripDmgL q := by
  rw [stripDmg_eq_claim hq]
  unfold claimBaseQueue
  split
  · exact fun hm => hq (List.take_subset _ _ hm)
  · exact hq

theorem dotPlusDollar_of_noNL {r : List Char} (hr : '\n' ∉ r) :
    dotPlusDollar r = if r.isEmpty then none else some r := by
  have ht : r.takeWhile (fun c => !(c == '\n')) = r :=
    List.takeWhile_eq_self_iff.mpr fun c hc => by
      simp only [Bool.not_eq_true']
      exact beq_eq_false_iff_ne.mpr fun h => hr (h ▸ hc)
  unfold dotPlusDollar
  simp only [ht, List.drop_length]

theorem yesAuthOrSelf_eq_claim {b : List Char} (hb : '\n' ∉ b) :
    yesAuthOrSelf b = claimBareQueue b := by
  unfold yesAuthOrSelf
  by_cases hpre : "YesAuth".data.isPrefixOf b = true
  case neg => simp [yesAuthMatch, claimBareQueue, hpre]
  case pos =>
    cases hd : b.drop 7 with
    | nil => simp [yesAuthMatch, claimBareQueue, hpre, hd]
    | cons s1 t =>
      by_cases hs1 : sepChar s1 = true
      case neg => simp [yesAuthMatch, claimBareQueue, hpre, hd, hs1]
      case pos =>
        by_cases hu : (t.takeWhile fun c => !(sepChar c)).isEmpty = true
        case pos => simp [yesAuthMatch, claimBareQueue, hpre, hd, hs1, hu]
        case neg =>
          cases hdt : t.drop (t.takeWhile fun c => !(sepChar c)).length with
          | nil => simp [yesAuthMatch, claimBareQueue, hpre, hd, hs1, hu, hdt]
          | cons s2 r =>
            by_cases hs2 : sepChar s2 = true
            case neg =>
              simp [yesAuthMatch, claimBareQueue, hpre, hd, hs1, hu, hdt, hs2]
            case pos =>
              have hrb : '\n' ∉ r := by
                intro hm
                apply hb
                have h1 : s2 :: r ⊆ t := hdt ▸ List.drop_subset _ t
                have h2 : t ⊆ b := by
                  intro x hx
                  have hx2 : x ∈ s1 :: t := List.mem_cons_of_mem _ hx
                  exact List.drop_subset 7 b (hd ▸ hx2)
                exact h2 (h1 (List.mem_cons_of_mem _ hm))
              cases r with
              | nil =>
                simp [yesAuthMatch, claimBareQueue, hpre, hd, hs1, hu, hdt, hs2,
                  dotPlusDollar_of_noNL hrb]
              | cons x s =>
                simp [yesAuthMatch, claimBareQueue, hpre, hd, hs1, hu, hdt, hs2,
                  dotPlusDollar_of_noNL hrb]

/-- C4: base queue strips one trailing `.dmg` case-insensitively; the bare
queue strips a whole-match leading `YesAuth`+sep+unit+sep pattern from the
base queue (else equals it); the popup name is the bare queue followed by
`_Popup`; and `"PRINTQ1.dmg"` yields `"PRINTQ1"`, `"PRINTQ1"`,
`"PRINTQ1_Popup"`. -/
theorem C4_queue_derivation :
    (∀ q : List Char, '\n' ∉ q →
        stripDmgL q = claimBaseQueue q ∧
        extract_bare_queueL q = claimBareQueue (claimBaseQueue q)) ∧
    (∀ q : String, popup_nameS q = bare_queueS q ++ "_Popup") ∧
    base_queueS "PRINTQ1.dmg" = "PRINTQ1" ∧
    bare_queueS "PRINTQ1.dmg" = "PRINTQ1" ∧
    popup_nameS "PRINTQ1.dmg" = "PRINTQ1_Popup" := by
  refine ⟨?_, fun q => rfl, by decide, by decide, by decide⟩
  intro q hq
  have h1 := stripDmg_eq_claim hq
  refine ⟨h1, ?_⟩
  unfold extract_bare_queueL
  rw [yesAuthOrSelf_eq_claim (noNL_stripDmg hq), h1]

theorem C4_queue_derivation_witness :
    ('\n' ∉ "YesAuth-BAKER-105.dmg".data) ∧
    (stripDmgL "YesAuth-BAKER-105.dmg".data =
        claimBaseQueue "YesAuth-BAKER-105.dmg".data ∧
      extract_bare_queueL "YesAuth-BAKER-105.dmg".data =
        claimBareQueue (claimBaseQueue "YesAuth-BAKER-105.dmg".data)) :=
  ⟨by decide, C4_queue_derivation.1 "YesAuth-BAKER-105.dmg".data (by decide)⟩

/-! ### Claim theorems for sanitization -/

theorem removeSpaces_eq_filter (l : List Char) :
    removeSpaces l = l.filter fun c => !(c == ' ') := by
  induction l with
  | nil => rfl
  | cons c r ih =>
    by_cases hc : (c == ' ') = true
    · simp [removeSpaces, List.filter_cons, hc, ih]
    · simp [removeSpaces, List.filter_cons, hc, ih]

/-- C5: the driver filename appends `.ppd` unless already present
case-insensitively; sanitization removes exactly the space characters,
preserving all other characters in order, so the sanitized length is the
original length minus the number of spaces and no space remains;
`"HP LaserJet 600"` yields `"HPLaserJet600.ppd"`. -/
theorem C5_sanitization :
    (∀ d : String,
        (sanitized_driver_filenameS d).data =
          (driver_filenameS d).data.filter fun c => !(c == ' ')) ∧
    (∀ d : String,
        (sanitized_driver_filenameS d).length =
          (driver_filenameS d).length - (driver_filenameS d).data.count ' ') ∧
    (∀ d : String, ' ' ∉ (sanitized_driver_filenameS d).data) ∧
    (∀ d : String, ¬ ".ppd".data.isSuffixOf (d.data.map Char.toLower) →
        driver_filenameS d = d ++ ".ppd") ∧
    (∀ d : String, ".ppd".data.isSuffixOf (d.data.map Char.toLower) →
        driver_filenameS d = d) ∧
    sanitized_driver_filenameS "HP LaserJet 600" = "HPLaserJet600.ppd" := by
  have hdata : ∀ d : String,
      (sanitized_driver_filenameS d).data =
        (driver_filenameS d).data.filter fun c => !(c == ' ') := by
    intro d
    show removeSpaces (driver_filenameS d).data = _
    exact removeSpaces_eq_filter _
  refine ⟨hdata, ?_, ?_, ?_, ?_, by decide⟩
  · intro d
    show (sanitized_driver_filenameS d).data.length = _
    rw [hdata d, ← List.countP_eq_length_filter]
    have hsplit := List.length_eq_countP_add_countP
      (fun c => (c == ' ')) ((driver_filenameS d).data)
    have hneg : List.countP (fun a => decide ¬((a == ' ') = true))
          (driver_filenameS d).data =
        List.countP (fun c => !(c == ' ')) (driver_filenameS d).data := by
      apply List.countP_congr
      intro a _
      cases h : a == ' ' <;> simp [h]
    have hcount : (driver_filenameS d).data.count ' ' =
        List.countP (fun c => (c == ' ')) (driver_filenameS d).data := by
      simp [List.count]
    show List.countP (fun c => !(c == ' ')) (driver_filenameS d).data =
      (driver_filenameS d).data.length - (driver_filenameS d).data.count ' '
    omega
  · intro d hm
    rw [hdata d] at hm
    simp at hm
  · intro d h
    unfold driver_filenameS
    rw [if_neg h]
  · intro d h
    unfold driver_filenameS
    rw [if_pos h]

theorem C5_sanitization_witness :
    (¬ ".ppd".data.isSuffixOf ("HP LaserJet 600".data.map Char.toLower)) ∧
    driver_filenameS "HP LaserJet 600" = "HP LaserJet 600" ++ ".ppd" :=
  ⟨by decide, C5_sanitization.2.2.2.1 "HP LaserJet 600" (by decide)⟩

/-! ### Catalog loading (source lines 55-60, 84-85, 103-104, 115-116) -/

/-- `load_list_from_file` (source lines 55-60).  The file system read is
externalized: `content` is `some` of the file's lines when the file exists,
`none` when it does not.  The body mirrors
`[line.strip() for line in f if line.strip()]` and `return default or []`. -/
def load_list_from_file (content : Option (List String)) (dflt : List String) :
    List String :=
  match content with
  | some lines =>
    (lines.map fun s => ((⟨pyStrip s.data⟩ : String))).filter fun s => s != ""
  | none => dflt

/-- Default technician list (source line 85). -/
def techniciansDefault : List String := ["Croucher, Mike", "Tian, Zhiyong"]

/-- Default package list (source line 104). -/
def packagesDefault : List String := []

/-- Default server list (source line 116). -/
def serversDefault : List String := ["PS1.ohio.edu", "PS2.ohio.edu", "PSB.ohio.edu"]

/-- The spec's wording for a present override source: the ordered sequence of
non-empty trimmed lines. -/
def specTrimmedLines (lines : List String) : List String :=
  lines.foldr
    (fun s acc =>
      let t : String := ⟨pyStrip s.data⟩
      if t = "" then acc else t :: acc) []

/-- C8 counterexample: with the packages override file absent, the
queues/packages candidate list is the empty list — the program has no
built-in default values for it (source line 104 passes `[]`), while the
technicians catalog does fall back to a non-empty hard-coded list. -/
theorem C8_counterexample :
    load_list_from_file none packagesDefault = [] ∧
    load_list_from_file none techniciansDefault ≠ [] :=
  ⟨rfl, by decide⟩

/-- C8 amended: when the override source is present, each catalog is exactly
its non-empty trimmed lines in order; when absent, technicians and servers
fall back to hard-coded non-empty default lists, but the queues/packages
catalog falls back to the empty list. -/
theorem filter_trimmed_eq_spec (lines : List String) :
    ((lines.map fun s => ((⟨pyStrip s.data⟩ : String))).filter fun s => s != "") =
      specTrimmedLines lines := by
  induction lines with
  | nil => rfl
  | cons s r ih =>
    rw [List.map_cons, List.filter_cons]
    unfold specTrimmedLines
    simp only [List.foldr_cons]
    by_cases hs : ((⟨pyStrip s.data⟩ : String) = "")
    · rw [if_neg (by simp [hs]), if_pos hs]
      exact ih
    · rw [if_pos (by simp [hs]), if_neg hs]
      exact congrArg _ ih

theorem C8_catalogs_amended :
    (∀ lines dflt : List String,
        load_list_from_file (some lines) dflt = specTrimmedLines lines) ∧
    load_list_from_file none techniciansDefault = techniciansDefault ∧
    load_list_from_file none serversDefault = serversDefault ∧
    techniciansDefault ≠ [] ∧
    serversDefault ≠ [] ∧
    load_list_from_file none packagesDefault = [] := by
  refine ⟨?_, rfl, rfl, by decide, by decide, rfl⟩
  intro lines dflt
  exact filter_trimmed_eq_spec lines

/-! ### Technician handling (source lines 38-44 and 62-72) -/

/-- `t.split(',', 1)`: the part before the first comma and the rest after it. -/
def splitFirstComma (l : List Char) : List Char × List Char :=
  (l.takeWhile fun c => !(c == ','), (l.dropWhile fun c => !(c == ',')).tail)

/-- Python `dict` assignment `m[k] = v` on an insertion-ordered association
list: overwrite in place, else append. -/
def dinsert : List (String × String) → String → String → List (String × String)
  | [], k, v => [(k, v)]
  | (k0, v0) :: r, k, v =>
    if k0 = k then (k0, v) :: r else (k0, v0) :: dinsert r k v

/-- `get_technician_map` (source lines 62-72): `"Last, First"` entries are
displayed as `"First Last"` mapping back to the raw entry; entries without a
comma map to themselves. -/
def get_technician_map (ts : List String) : List (String × String) :=
  ts.foldl
    (fun m t =>
      if t.data.contains ',' then
        dinsert m
          ⟨pyStrip (splitFirstComma t.data).2 ++ ' ' :: pyStrip (splitFirstComma t.data).1⟩
          t
      else dinsert m t t)
    []

/-- Python `dict.get(k, d)`. -/
def mapGet : List (String × String) → String → String → String
  | [], _, d => d
  | (k0, v) :: r, k, d => if k0 = k then v else mapGet r k d

/-- `get_first_name` (source lines 38-44).  `none` models the `IndexError`
of `full_name.split()[0]` on a token-free name without a comma. -/
def get_first_nameL (l : List Char) : Option (List Char) :=
  if l.contains ',' then
    match (pySplitOnChar ',' l).get? 1 with
    | some p => some (pyStrip p)
    | none => none
  else (pySplitWs l).head?

/-- The claim's wording: the first whitespace-delimited token after the
comma when the name contains one, the first whitespace-delimited token of
the whole name otherwise. -/
def claimFirstName (l : List Char) : Option (List Char) :=
  if l.contains ',' then
    (pySplitWs ((l.dropWhile fun c => !(c == ',')).tail)).head?
  else (pySplitWs l).head?

/-- C10 amended wording: when the name contains a comma, the addressed name
is the whole trimmed segment between the first comma and the next comma or
end of name (not just its first token); otherwise it is the first
whitespace-delimited token of the name. -/
def amendedFirstName (l : List Char) : Option (List Char) :=
  if l.contains ',' then
    some (pyStrip (((l.dropWhile fun c => !(c == ',')).tail).takeWhile fun c => !(c == ',')))
  else
    let t := (l.dropWhile isWs).takeWhile notWs
    if t.isEmpty then none else some t

theorem pySplitOnChar_ne_nil (sep : Char) (l : List Char) :
    pySplitOnChar sep l ≠ [] := by
  cases l with
  | nil => simp [pySplitOnChar]
  | cons c r =>
    unfold pySplitOnChar
    by_cases hc : (c == sep) = true
    · simp [hc]
    · simp only [hc, Bool.false_eq_true, if_false]
      split <;> simp_all

theorem pySplitOnChar_head_take (sep : Char) (m : List Char) :
    (pySplitOnChar sep m).head? = some (m.takeWhile fun c => !(c == sep)) := by
  induction m with
  | nil => rfl
  | cons c r ih =>
    unfold pySplitOnChar
    by_cases hc : (c == sep) = true
    · simp [hc, List.takeWhile_cons, hc]
    · simp only [hc, Bool.false_eq_true, if_false]
      cases hsplit : pySplitOnChar sep r with
      | nil => exact absurd hsplit (pySplitOnChar_ne_nil sep r)
      | cons t ts =>
        rw [hsplit] at ih
        simp only [List.head?] at ih
        cases ih
        simp [List.takeWhile_cons, hc]

theorem pySplitOnChar_cons (sep c : Char) (r : List Char) :
    pySplitOnChar sep (c :: r) =
      if (c == sep) = true then [] :: pySplitOnChar sep r
      else
        match pySplitOnChar sep r with
        | [] => [[c]]
        | t :: ts => (c :: t) :: ts := rfl

theorem pySplitOnChar_eq_cons (sep : Char) (l : List Char)
    (h : l.contains sep = true) :
    pySplitOnChar sep l =
      (l.takeWhile fun c => !(c == sep)) ::
        pySplitOnChar sep ((l.dropWhile fun c => !(c == sep)).tail) := by
  induction l with
  | nil => simp at h
  | cons c r ih =>
    rw [pySplitOnChar_cons]
    by_cases hc : (c == sep) = true
    · rw [if_pos hc]
      simp [List.takeWhile_cons, List.dropWhile_cons, hc]
    · have hr : r.contains sep = true := by
        have h2 : sep = c ∨ sep ∈ r := by simpa using h
        rcases h2 with h2 | h2
        · exact absurd (beq_iff_eq.mpr h2.symm) hc
        · simpa using h2
      rw [if_neg hc, ih hr]
      simp [List.takeWhile_cons, List.dropWhile_cons, hc]

theorem splitWsGo_head_acc (l : List Char) :
    ∀ acc : List Char, acc ≠ [] →
      (splitWsGo l acc).head? = some (acc.reverse ++ l.takeWhile notWs) := by
  induction l with
  | nil =>
    intro acc ha
    simp [splitWsGo, List.isEmpty_iff, ha]
  | cons c r ih =>
    intro acc ha
    by_cases hw : isWs c = true
    · have hn : notWs c = false := by simp [notWs, hw]
      simp [splitWsGo, hw, List.isEmpty_iff, ha, List.takeWhile_cons, hn]
    · have hn : notWs c = true := by simp [notWs, hw]
      rw [show splitWsGo (c :: r) acc = splitWsGo r (c :: acc) by
        simp [splitWsGo, hw]]
      rw [ih (c :: acc) (by simp)]
      simp [List.takeWhile_cons, hn]

theorem pySplitWs_head (l : List Char) :
    (pySplitWs l).head? =
      (if ((l.dropWhile isWs).takeWhile notWs).isEmpty then none
       else some ((l.dropWhile isWs).takeWhile notWs)) := by
  induction l with
  | nil => rfl
  | cons c r ih =>
    by_cases hw : isWs c = true
    · have : pySplitWs (c :: r) = pySplitWs r := by
        show splitWsGo (c :: r) [] = splitWsGo r []
        simp [splitWsGo, hw]
      rw [this, ih, List.dropWhile_cons, if_pos hw]
    · have hn : notWs c = true := by simp [notWs, hw]
      have h1 : pySplitWs (c :: r) = splitWsGo r [c] := by
        show splitWsGo (c :: r) [] = _
        simp [splitWsGo, hw]
      rw [h1, splitWsGo_head_acc r [c] (by simp)]
      have h2 : (c :: r).dropWhile isWs = c :: r := by
        simp [List.dropWhile_cons, hw]
      have h3 : (c :: r).takeWhile notWs = c :: r.takeWhile notWs := by
        simp [List.takeWhile_cons, hn]
      rw [h2, h3]
      simp

/-- C10 counterexample: for the resolved name `"Smith, Mary Jane"` the code
addresses `"Mary Jane"` (the whole stripped segment after the comma), not
the first token `"Mary"` after the comma as the claim states. -/
theorem C10_counterexample :
    get_first_nameL "Smith, Mary Jane".data = some "Mary Jane".data ∧
    claimFirstName "Smith, Mary Jane".data = some "Mary".data ∧
    some "Mary Jane".data ≠ some "Mary".data :=
  ⟨by decide, by decide, by decide⟩

/-- C10 amended: the acknowledgement addresses the whole trimmed segment
between the first comma and the next comma or end of the name when the name
contains a comma, and the first whitespace-delimited token of the name
otherwise. -/
theorem C10_first_name_amended :
    ∀ l : List Char, get_first_nameL l = amendedFirstName l := by
  intro l
  unfold get_first_nameL amendedFirstName
  by_cases hc : l.contains ',' = true
  · rw [if_pos hc, if_pos hc]
    rw [pySplitOnChar_eq_cons ',' l hc]
    have h2 : ((l.takeWhile fun c => !(c == ',')) ::
        pySplitOnChar ',' ((l.dropWhile fun c => !(c == ',')).tail)).get? 1 =
        (pySplitOnChar ',' ((l.dropWhile fun c => !(c == ',')).tail)).head? := by
      cases hsplit : pySplitOnChar ',' ((l.dropWhile fun c => !(c == ',')).tail) with
      | nil => exact absurd hsplit (pySplitOnChar_ne_nil _ _)
      | cons t ts => simp
    rw [h2, pySplitOnChar_head_take]
  · rw [if_neg hc, if_neg hc]
    exact pySplitWs_head l

/-! ### The interactive `main` workflow (source lines 82-214)

External effects are injected through an environment record: the optional
contents of the three override files, the (optional) listing of the PPD
resources directory, the five prompt answers (the empty string stands for a
cancelled dialog or an empty custom entry, the two cases the script treats
identically through falsiness), the success of the two external tools, the
pre-existence of the destination DMG, the overwrite confirmation, and the
formatted current date.  The run's filesystem-visible effects and final
outcome are collected in a result record. -/

structure Env where
  techLines : Option (List String)
  pkgLines : Option (List String)
  srvLines : Option (List String)
  listing : Option (List String)
  techAnswer : String
  queueAnswer : String
  serverAnswer : String
  manufacturerAnswer : String
  driverAnswer : String
  gunzipOk : Bool
  installerOk : Bool
  dmgExists : Bool
  overwriteYes : Bool
  hdiutilOk : Bool
  date : String
deriving DecidableEq

/-- Final outcome: `crashed` models an unhandled Python exception, `aborted`
an early `return` after printing an error, `buildFailed` the reported
`hdiutil` failure, `built` the success message with the DMG path. -/
inductive Outcome where
  | crashed : Outcome
  | aborted : String → Outcome
  | buildFailed : Outcome
  | built : String → Outcome
deriving DecidableEq

structure RunResult where
  promptedQueue : Bool := false
  promptedServer : Bool := false
  promptedManufacturer : Bool := false
  promptedDriver : Bool := false
  promptedOverwrite : Bool := false
  tempCreated : Bool := false
  ppdDest : Option String := none
  installerCopied : Bool := false
  installFilesWritten : Option (String × String) := none
  postInstallWritten : Option (String × String) := none
  hdiutilInvoked : Bool := false
  outcome : Outcome := .crashed
deriving DecidableEq

/-- `technician_full` (source lines 84-89): the display answer resolved
through the technician map, defaulting to the answer itself. -/
def technician_fullOf (e : Env) : String :=
  mapGet (get_technician_map (load_list_from_file e.techLines techniciansDefault))
    e.techAnswer e.techAnswer

/-- `temp_dir` (source line 155); `volume_name` is `base_queue` (line 154). -/
def temp_dirOf (e : Env) : String := "/tmp/" ++ base_queueS e.queueAnswer

/-- `custom_dir` (source line 159). -/
def custom_dirOf (e : Env) : String := temp_dirOf e ++ "/Custom"

/-- `dmg_path` (source lines 196-198). -/
def dmg_pathOf (e : Env) : String :=
  "~/Downloads/PharosDMG/" ++
    (if ".dmg".data.isSuffixOf (e.queueAnswer.data.map Char.toLower) then
      e.queueAnswer
    else e.queueAnswer ++ ".dmg")

/-- Content of `Custom/InstallFiles.txt` (source lines 183-186). -/
def installFilesText (tech date san : String) : String :=
  "# PPD file need to be copied\n#\n" ++
    ("# " ++ tech ++ " -- " ++ date ++ "\n#\n") ++
    ("/etc/cups/ppd/" ++ san ++ "\n")

/-- Content of `Custom/PostInstall.sh` (source lines 190-193). -/
def postInstallText (tech date popup server base san : String) : String :=
  "# Install print queue in CUPS\n#\n" ++
    ("# " ++ tech ++ " -- " ++ date ++ "\n#\n") ++
    ("lpadmin -p " ++ popup ++ " -v popup://" ++ server ++ "/" ++ base ++
      " -E -P " ++ san ++ "\n")

/-- The whole workflow `main` (source lines 82-214) as a pure function. -/
def mainRun (e : Env) : RunResult :=
  -- lines 91-100: acknowledgement dialog; `get_first_name` raises on a
  -- truthy name that has no comma and no whitespace token
  if technician_fullOf e ≠ "" ∧ get_first_nameL (technician_fullOf e).data = none then
    { outcome := .crashed }
  else
  -- lines 103-108: package/queue prompt and its immediate abort
  if e.queueAnswer = "" then
    { promptedQueue := true,
      outcome := .aborted "No queue/package selected or entered." }
  else
  -- lines 115-120: server prompt and its immediate abort
  if e.serverAnswer = "" then
    { promptedQueue := true, promptedServer := true,
      outcome := .aborted "No server selected or entered." }
  else
  -- lines 123-128: listing the driver directory may fail
  match e.listing with
  | none =>
    { promptedQueue := true, promptedServer := true,
      outcome := .aborted "Could not list printer drivers" }
  | some listing =>
    -- line 130: building the manufacturer set runs extraction on every
    -- catalog entry; an extraction `IndexError` crashes the run
    if (listing.filter fun f => ".gz".data.isSuffixOf f.data).any
        (fun f => (extractCore f.data).isNone) then
      { promptedQueue := true, promptedServer := true, outcome := .crashed }
    else
    -- lines 131-134
    if e.manufacturerAnswer = "" then
      { promptedQueue := true, promptedServer := true,
        promptedManufacturer := true,
        outcome := .aborted "No manufacturer selected or entered." }
    else
    -- lines 136-140
    if e.driverAnswer = "" then
      { promptedQueue := true, promptedServer := true,
        promptedManufacturer := true, promptedDriver := true,
        outcome := .aborted "No driver selected or entered." }
    else
    -- lines 143-145: the only check that catches an empty technician
    if technician_fullOf e = "" ∨ e.queueAnswer = "" ∨
        popup_nameS e.queueAnswer = "" ∨ e.driverAnswer = "" ∨
        e.serverAnswer = "" then
      { promptedQueue := true, promptedServer := true,
        promptedManufacturer := true, promptedDriver := true,
        outcome := .aborted "Operation cancelled or incomplete selection." }
    else
    -- lines 157-170: fresh temp tree; the destination PPD file is created
    -- by `open` before `gunzip` runs, so it exists even when gunzip fails
    if ¬ e.gunzipOk then
      { promptedQueue := true, promptedServer := true,
        promptedManufacturer := true, promptedDriver := true,
        tempCreated := true,
        ppdDest := some (custom_dirOf e ++ "/" ++
          sanitized_driver_filenameS e.driverAnswer),
        outcome := .aborted "Could not decompress PPD" }
    else
    -- lines 173-179
    if ¬ e.installerOk then
      { promptedQueue := true, promptedServer := true,
        promptedManufacturer := true, promptedDriver := true,
        tempCreated := true,
        ppdDest := some (custom_dirOf e ++ "/" ++
          sanitized_driver_filenameS e.driverAnswer),
        outcome := .aborted "Installer.pkg not found in ~/Downloads/PharosDMG" }
    else
    -- lines 200-204: overwrite confirmation
    if e.dmgExists ∧ ¬ e.overwriteYes then
      { promptedQueue := true, promptedServer := true,
        promptedManufacturer := true, promptedDriver := true,
        promptedOverwrite := true, tempCreated := true,
        ppdDest := some (custom_dirOf e ++ "/" ++
          sanitized_driver_filenameS e.driverAnswer),
        installerCopied := true,
        installFilesWritten := some (custom_dirOf e ++ "/InstallFiles.txt",
          installFilesText (technician_fullOf e) e.date
            (sanitized_driver_filenameS e.driverAnswer)),
        postInstallWritten := some (custom_dirOf e ++ "/PostInstall.sh",
          postInstallText (technician_fullOf e) e.date
            (popup_nameS e.queueAnswer) e.serverAnswer
            (base_queueS e.queueAnswer)
            (sanitized_driver_filenameS e.driverAnswer)),
        outcome := .aborted "Operation cancelled by user." }
    else
    -- lines 206-214: hdiutil invocation
    { promptedQueue := true, promptedServer := true,
      promptedManufacturer := true, promptedDriver := true,
      promptedOverwrite := e.dmgExists, tempCreated := true,
      ppdDest := some (custom_dirOf e ++ "/" ++
        sanitized_driver_filenameS e.driverAnswer),
      installerCopied := true,
      installFilesWritten := some (custom_dirOf e ++ "/InstallFiles.txt",
        installFilesText (technician_fullOf e) e.date
          (sanitized_driver_filenameS e.driverAnswer)),
      postInstallWritten := some (custom_dirOf e ++ "/PostInstall.sh",
        postInstallText (technician_fullOf e) e.date
          (popup_nameS e.queueAnswer) e.serverAnswer
          (base_queueS e.queueAnswer)
          (sanitized_driver_filenameS e.driverAnswer)),
      hdiutilInvoked := true,
      outcome := if e.hdiutilOk then .built (dmg_pathOf e) else .buildFailed }

/-- Crash-freedom assumptions on the environment, satisfied by every run in
which the resolved technician name is a genuine stripped prompt/catalog
value (so `get_first_name` finds a token) and the driver catalog holds no
degenerate entry such as a file literally named `".gz"`. -/
@[reducible] def EnvOK (e : Env) : Prop :=
  (technician_fullOf e = "" ∨ get_first_nameL (technician_fullOf e).data ≠ none) ∧
  ∀ f ∈ e.listing.getD [], ".gz".data.isSuffixOf f.data = true →
    extractCore f.data ≠ none

/-- A string free of newline characters, as every prompt answer, catalog
line and formatted date is. -/
@[reducible] def NoNL (s : String) : Prop := '\n' ∉ s.data

/-! ### Newline-freedom of the derived names -/

theorem noNL_append {a b : List Char} (ha : '\n' ∉ a) (hb : '\n' ∉ b) :
    '\n' ∉ a ++ b := by
  intro hm
  rcases List.mem_append.mp hm with h | h
  · exact ha h
  · exact hb h

theorem dotPlusDollar_subset {r a : List Char} (h : dotPlusDollar r = some a) :
    a ⊆ r := by
  simp only [dotPlusDollar] at h
  by_cases he : (r.takeWhile fun c => !(c == '\n')).isEmpty = true
  · rw [if_pos he] at h
    simp at h
  · rw [if_neg he] at h
    split at h
    · cases h
      exact (List.takeWhile_prefix _).subset
    · cases h
      exact (List.takeWhile_prefix _).subset
    · simp at h

theorem yesAuthMatch_subset {b r : List Char} (h : yesAuthMatch b = some r) :
    r ⊆ b := by
  unfold yesAuthMatch at h
  by_cases hpre : "YesAuth".data.isPrefixOf b = true
  case neg => rw [if_neg hpre] at h; simp at h
  case pos =>
    rw [if_pos hpre] at h
    cases hd : b.drop 7 with
    | nil => rw [hd] at h; simp at h
    | cons s1 t =>
      rw [hd] at h
      by_cases hs1 : sepChar s1 = true
      case neg => simp [hs1] at h
      case pos =>
        simp only [hs1, if_true] at h
        by_cases hu : ((t.takeWhile fun c => !(sepChar c))).isEmpty = true
        case pos => simp [hu] at h
        case neg =>
          rw [if_neg hu] at h
          cases hdt : t.drop (t.takeWhile fun c => !(sepChar c)).length with
          | nil => rw [hdt] at h; simp at h
          | cons s2 r0 =>
            rw [hdt] at h
            by_cases hs2 : sepChar s2 = true
            case neg => simp [hs2] at h
            case pos =>
              simp only [hs2, if_true] at h
              have h1 : r ⊆ r0 := dotPlusDollar_subset h
              have h2 : s2 :: r0 ⊆ t := hdt ▸ List.drop_subset _ t
              have h3 : t ⊆ b := by
                intro x hx
                have hx2 : x ∈ s1 :: t := List.mem_cons_of_mem _ hx
                exact List.drop_subset 7 b (hd ▸ hx2)
              exact fun x hx => h3 (h2 (List.mem_cons_of_mem _ (h1 hx)))

theorem noNL_yesAuthOrSelf {b : List Char} (hb : '\n' ∉ b) :
    '\n' ∉ yesAuthOrSelf b := by
  unfold yesAuthOrSelf
  cases hy : yesAuthMatch b with
  | none => exact hb
  | some rest => exact fun hm => hb (yesAuthMatch_subset hy hm)

theorem noNL_bare {q : List Char} (hq : '\n' ∉ q) :
    '\n' ∉ extract_bare_queueL q :=
  noNL_yesAuthOrSelf (noNL_stripDmg hq)

theorem noNL_popup {q : String} (hq : NoNL q) : NoNL (popup_nameS q) := by
  show '\n' ∉ (bare_queueS q ++ "_Popup").data
  rw [String.data_append]
  exact noNL_append (noNL_bare hq) (by decide)

theorem noNL_base {q : String} (hq : NoNL q) : NoNL (base_queueS q) :=
  noNL_stripDmg hq

theorem noNL_sanitized {d : String} (hd : NoNL d) :
    NoNL (sanitized_driver_filenameS d) := by
  show '\n' ∉ removeSpaces (driver_filenameS d).data
  rw [removeSpaces_eq_filter]
  intro hm
  have hmem : '\n' ∈ (driver_filenameS d).data := List.mem_of_mem_filter hm
  unfold driver_filenameS at hmem
  split at hmem
  · exact hd hmem
  · rw [String.data_append] at hmem
    exact noNL_append hd (by decide) hmem

/-! ### Line structure of the generated artifacts -/

/-- A line is operative when it is non-empty and not a `#` comment. -/
def isOperative (l : List Char) : Bool :=
  match l with
  | [] => false
  | c :: _ => !(c == '#')

/-- The operative lines of a generated text file. -/
def operativeLines (s : String) : List (List Char) :=
  (pySplitOnChar '\n' s.data).filter isOperative

theorem split_nl_append (a b : List Char) (ha : '\n' ∉ a) :
    pySplitOnChar '\n' (a ++ '\n' :: b) = a :: pySplitOnChar '\n' b := by
  induction a with
  | nil => simp [pySplitOnChar_cons]
  | cons c a' ih =>
    have hc : (c == '\n') = false :=
      beq_eq_false_iff_ne.mpr fun hcc => ha (hcc ▸ List.mem_cons_self _ _)
    have ha' : '\n' ∉ a' := fun hm => ha (List.mem_cons_of_mem _ hm)
    rw [List.cons_append, pySplitOnChar_cons, if_neg (by simp [hc]), ih ha']

theorem split_hash (b : List Char) :
    pySplitOnChar '\n' ('#' :: '\n' :: b) = ['#'] :: pySplitOnChar '\n' b := by
  rw [pySplitOnChar_cons, if_neg (by decide), pySplitOnChar_cons, if_pos (by decide)]

theorem installFiles_lines (t d san : String)
    (ht : '\n' ∉ t.data) (hd : '\n' ∉ d.data) (hs : '\n' ∉ san.data) :
    pySplitOnChar '\n' (installFilesText t d san).data =
      ["# PPD file need to be copied".data, ['#'],
       "# ".data ++ (t.data ++ (" -- ".data ++ d.data)), ['#'],
       "/etc/cups/ppd/".data ++ san.data, []] := by
  have h0 : (installFilesText t d san).data =
      "# PPD file need to be copied".data ++ '\n' :: '#' :: '\n' ::
        ("# ".data ++ (t.data ++ (" -- ".data ++ (d.data ++ ('\n' :: '#' :: '\n' ::
          ("/etc/cups/ppd/".data ++ (san.data ++ ['\n']))))))) := by
    have e1 : ("# PPD file need to be copied\n#\n" : String).data
        = "# PPD file need to be copied".data ++ '\n' :: '#' :: '\n' :: [] := by
      decide
    have e2 : ("\n#\n" : String).data = '\n' :: '#' :: '\n' :: [] := by decide
    have e3 : ("\n" : String).data = ['\n'] := by decide
    simp only [installFilesText, String.data_append, e1, e2, e3]
    simp [List.append_assoc]
  rw [h0, split_nl_append _ _ (by decide), split_hash]
  have hre : ("# ".data ++ (t.data ++ (" -- ".data ++ (d.data ++ ('\n' :: '#' :: '\n' ::
        ("/etc/cups/ppd/".data ++ (san.data ++ ['\n']))))))) =
      ("# ".data ++ (t.data ++ (" -- ".data ++ d.data))) ++ '\n' :: '#' :: '\n' ::
        ("/etc/cups/ppd/".data ++ (san.data ++ ['\n'])) := by
    simp [List.append_assoc]
  rw [hre]
  have hattr : '\n' ∉ "# ".data ++ (t.data ++ (" -- ".data ++ d.data)) :=
    noNL_append (by decide) (noNL_append ht (noNL_append (by decide) hd))
  rw [split_nl_append _ _ hattr, split_hash]
  have hre2 : "/etc/cups/ppd/".data ++ (san.data ++ ['\n']) =
      ("/etc/cups/ppd/".data ++ san.data) ++ '\n' :: [] := by
    simp [List.append_assoc]
  rw [hre2, split_nl_append _ _ (noNL_append (by decide) hs)]
  rfl

theorem postInstall_lines (t d popup server base san : String)
    (ht : '\n' ∉ t.data) (hd : '\n' ∉ d.data) (hp : '\n' ∉ popup.data)
    (hsv : '\n' ∉ server.data) (hb : '\n' ∉ base.data) (hs : '\n' ∉ san.data) :
    pySplitOnChar '\n' (postInstallText t d popup server base san).data =
      ["# Install print queue in CUPS".data, ['#'],
       "# ".data ++ (t.data ++ (" -- ".data ++ d.data)), ['#'],
       "lpadmin -p ".data ++ (popup.data ++ (" -v popup://".data ++
         (server.data ++ ("/".data ++ (base.data ++
           (" -E -P ".data ++ san.data)))))), []] := by
  have h0 : (postInstallText t d popup server base san).data =
      "# Install print queue in CUPS".data ++ '\n' :: '#' :: '\n' ::
        ("# ".data ++ (t.data ++ (" -- ".data ++ (d.data ++ ('\n' :: '#' :: '\n' ::
          ("lpadmin -p ".data ++ (popup.data ++ (" -v popup://".data ++
            (server.data ++ ("/".data ++ (base.data ++
              (" -E -P ".data ++ (san.data ++ ['\n']))))))))))))) := by
    have e1 : ("# Install print queue in CUPS\n#\n" : String).data
        = "# Install print queue in CUPS".data ++ '\n' :: '#' :: '\n' :: [] := by
      decide
    have e2 : ("\n#\n" : String).data = '\n' :: '#' :: '\n' :: [] := by decide
    have e3 : ("\n" : String).data = ['\n'] := by decide
    simp only [postInstallText, String.data_append, e1, e2, e3]
    simp [List.append_assoc]
  rw [h0, split_nl_append _ _ (by decide), split_hash]
  have hre : ("# ".data ++ (t.data ++ (" -- ".data ++ (d.data ++ ('\n' :: '#' :: '\n' ::
        ("lpadmin -p ".data ++ (popup.data ++ (" -v popup://".data ++
          (server.data ++ ("/".data ++ (base.data ++
            (" -E -P ".data ++ (san.data ++ ['\n']))))))))))))) =
      ("# ".data ++ (t.data ++ (" -- ".data ++ d.data))) ++ '\n' :: '#' :: '\n' ::
        ("lpadmin -p ".data ++ (popup.data ++ (" -v popup://".data ++
          (server.data ++ ("/".data ++ (base.data ++
            (" -E -P ".data ++ (san.data ++ ['\n'])))))))) := by
    simp [List.append_assoc]
  rw [hre]
  have hattr : '\n' ∉ "# ".data ++ (t.data ++ (" -- ".data ++ d.data)) :=
    noNL_append (by decide) (noNL_append ht (noNL_append (by decide) hd))
  rw [split_nl_append _ _ hattr, split_hash]
  have hre2 : ("lpadmin -p ".data ++ (popup.data ++ (" -v popup://".data ++
        (server.data ++ ("/".data ++ (base.data ++
          (" -E -P ".data ++ (san.data ++ ['\n'])))))))) =
      ("lpadmin -p ".data ++ (popup.data ++ (" -v popup://".data ++
        (server.data ++ ("/".data ++ (base.data ++
          (" -E -P ".data ++ san.data))))))) ++ '\n' :: [] := by
    simp [List.append_assoc]
  have hcmd : '\n' ∉ "lpadmin -p ".data ++ (popup.data ++ (" -v popup://".data ++
      (server.data ++ ("/".data ++ (base.data ++ (" -E -P ".data ++ san.data)))))) :=
    noNL_append (by decide) (noNL_append hp (noNL_append (by decide)
      (noNL_append hsv (noNL_append (by decide) (noNL_append hb
        (noNL_append (by decide) hs))))))
  rw [hre2, split_nl_append _ _ hcmd]
  rfl

theorem isOperative_header1 :
    isOperative "# PPD file need to be copied".data = false := rfl

theorem isOperative_header2 :
    isOperative "# Install print queue in CUPS".data = false := rfl

theorem isOperative_hash : isOperative ['#'] = false := rfl

theorem isOperative_nil : isOperative [] = false := rfl

theorem isOperative_attrib (x : List Char) :
    isOperative ("# ".data ++ x) = false := rfl

theorem isOperative_target (x : List Char) :
    isOperative ("/etc/cups/ppd/".data ++ x) = true := rfl

theorem isOperative_lpadmin (x : List Char) :
    isOperative ("lpadmin -p ".data ++ x) = true := rfl

theorem isOperative_cons (c : Char) (l : List Char) :
    isOperative (c :: l) = !(c == '#') := rfl

/-! ### The date format (external `strftime`) and the name-derivation record -/

/-- Modelled from the spec: `datetime.now().strftime("%m/%d/%Y")` of the
Python standard library (not part of `src/`) renders the current date as a
zero-padded two-digit month and day and a four-digit year separated by
slashes (stated here for the valid calendar dates the program runs on). -/
def strftimeMDY (m d y : Nat) : String :=
  ⟨[Nat.digitChar (m / 10 % 10), Nat.digitChar (m % 10), '/',
    Nat.digitChar (d / 10 % 10), Nat.digitChar (d % 10), '/',
    Nat.digitChar (y / 1000 % 10), Nat.digitChar (y / 100 % 10),
    Nat.digitChar (y / 10 % 10), Nat.digitChar (y % 10)]⟩

/-- The `MM/DD/YYYY` shape: ten characters, all digits except slashes at
positions 3 and 6. -/
def isMMDDYYYY (s : String) : Bool :=
  match s.data with
  | [m1, m2, s1, d1, d2, s2, y1, y2, y3, y4] =>
    m1.isDigit && m2.isDigit && (s1 == '/') && d1.isDigit && d2.isDigit &&
      (s2 == '/') && y1.isDigit && y2.isDigit && y3.isDigit && y4.isDigit
  | _ => false

theorem digitChar_isDigit : ∀ k : Nat, k < 10 → (Nat.digitChar k).isDigit = true := by
  decide

theorem strftime_shape (m d y : Nat) : isMMDDYYYY (strftimeMDY m d y) = true := by
  have h : ∀ x : Nat, (Nat.digitChar (x % 10)).isDigit = true := fun x =>
    digitChar_isDigit (x % 10) (Nat.mod_lt x (by norm_num))
  simp [isMMDDYYYY, strftimeMDY, h]

/-- The resolved user choices (spec data model `SelectionSet`). -/
structure SelectionSet where
  technician_full : String
  queue_name : String
  server : String
  manufacturer : String
  selected_driver : String
deriving DecidableEq

/-- The derived identifiers (spec data model `NameSet`). -/
structure NameSet where
  base_queue : String
  bare_queue : String
  popup_name : String
  volume_name : String
  driver_filename : String
  sanitized_driver_filename : String
deriving DecidableEq

/-- Name derivation (source lines 110-112, 148-150, 154). -/
def deriveNames (s : SelectionSet) : NameSet :=
  { base_queue := base_queueS s.queue_name
    bare_queue := bare_queueS s.queue_name
    popup_name := popup_nameS s.queue_name
    volume_name := base_queueS s.queue_name
    driver_filename := driver_filenameS s.selected_driver
    sanitized_driver_filename := sanitized_driver_filenameS s.selected_driver }

/-! ### Helper facts about the technician map and the branch structure of
`mainRun` -/

theorem mapGet_no_key :
    ∀ (m : List (String × String)) (k d : String),
      (∀ p ∈ m, p.1 ≠ k) → mapGet m k d = d := by
  intro m
  induction m with
  | nil => intro k d _; rfl
  | cons kv r ih =>
    intro k d h
    obtain ⟨k0, v⟩ := kv
    unfold mapGet
    rw [if_neg (h (k0, v) (List.mem_cons_self _ _))]
    exact ih k d fun p hp => h p (List.mem_cons_of_mem _ hp)

theorem dinsert_mem :
    ∀ (m : List (String × String)) (k v : String) (p : String × String),
      p ∈ dinsert m k v → p.1 = k ∨ p ∈ m := by
  intro m
  induction m with
  | nil =>
    intro k v p hp
    rcases List.mem_singleton.mp hp with rfl
    exact Or.inl rfl
  | cons kv r ih =>
    intro k v p hp
    obtain ⟨k0, v0⟩ := kv
    unfold dinsert at hp
    split at hp
    · rcases List.mem_cons.mp hp with rfl | hp
      · next he => exact Or.inl he
      · exact Or.inr (List.mem_cons_of_mem _ hp)
    · rcases List.mem_cons.mp hp with rfl | hp
      · exact Or.inr (List.mem_cons_self _ _)
      · rcases ih k v p hp with h | h
        · exact Or.inl h
        · exact Or.inr (List.mem_cons_of_mem _ h)

theorem techMap_keys_ne :
    ∀ (ts : List String) (m : List (String × String)),
      (∀ t ∈ ts, t ≠ "") → (∀ p ∈ m, p.1 ≠ "") →
      ∀ p ∈ ts.foldl
        (fun m t =>
          if t.data.contains ',' then
            dinsert m
              ⟨pyStrip (splitFirstComma t.data).2 ++ ' ' ::
                pyStrip (splitFirstComma t.data).1⟩ t
          else dinsert m t t) m, p.1 ≠ "" := by
  intro ts
  induction ts with
  | nil => intro m _ hm p hp; exact hm p hp
  | cons t r ih =>
    intro m hts hm p hp
    rw [List.foldl_cons] at hp
    refine ih _ (fun x hx => hts x (List.mem_cons_of_mem _ hx)) ?_ p hp
    intro q hq
    split at hq
    · rcases dinsert_mem _ _ _ q hq with h | h
      · rw [h]
        intro hcon
        have hdata := congrArg String.data hcon
        rcases List.append_eq_nil.mp hdata with ⟨_, h2⟩
        exact absurd h2 (by simp)
      · exact hm q h
    · rcases dinsert_mem _ _ _ q hq with h | h
      · rw [h]; exact hts t (List.mem_cons_self _ _)
      · exact hm q h

theorem load_ne_empty (content : Option (List String)) (dflt : List String)
    (hd : ∀ s ∈ dflt, s ≠ "") :
    ∀ t ∈ load_list_from_file content dflt, t ≠ "" := by
  intro t ht
  cases content with
  | none => exact hd t ht
  | some lines =>
    have h := List.mem_filter.mp ht
    simpa using h.2

theorem technician_fullOf_empty (e : Env) (h : e.techAnswer = "") :
    technician_fullOf e = "" := by
  unfold technician_fullOf
  rw [h]
  apply mapGet_no_key
  intro p hp
  exact techMap_keys_ne (load_list_from_file e.techLines techniciansDefault) []
    (load_ne_empty _ _ (by decide)) (by simp) p hp

theorem popup_ne_empty (q : String) : popup_nameS q ≠ "" := by
  intro h
  have h2 := congrArg String.data h
  have h3 : (popup_nameS q).data = (bare_queueS q).data ++ "_Popup".data :=
    String.data_append _ _
  rw [h3] at h2
  have h4 : (("" : String)).data = [] := rfl
  rw [h4] at h2
  rcases List.append_eq_nil.mp h2 with ⟨_, hP⟩
  exact absurd hP (by decide)

theorem mainRun_noCrash {e : Env} (hok : EnvOK e) :
    ¬(technician_fullOf e ≠ "" ∧ get_first_nameL (technician_fullOf e).data = none) := by
  rcases hok.1 with h | h
  · exact fun hc => hc.1 h
  · exact fun hc => h hc.2

theorem any_extract_false {e : Env} {L : List String} (hok : EnvOK e)
    (hl : e.listing = some L) :
    ((L.filter fun f => ".gz".data.isSuffixOf f.data).any
      fun f => (extractCore f.data).isNone) = false := by
  rw [List.any_eq_false]
  intro f hf
  have hmem := List.mem_filter.mp hf
  have hne := hok.2 f (by rw [hl]; exact hmem.1) hmem.2
  cases ho : extractCore f.data with
  | none => exact absurd ho hne
  | some m => simp

theorem mainRun_queue_empty {e : Env} (hok : EnvOK e) (hq : e.queueAnswer = "") :
    mainRun e =
      { promptedQueue := true,
        outcome := .aborted "No queue/package selected or entered." } := by
  unfold mainRun
  rw [if_neg (mainRun_noCrash hok), if_pos hq]

theorem mainRun_server_empty {e : Env} (hok : EnvOK e)
    (hq : e.queueAnswer ≠ "") (hs : e.serverAnswer = "") :
    mainRun e =
      { promptedQueue := true, promptedServer := true,
        outcome := .aborted "No server selected or entered." } := by
  unfold mainRun
  rw [if_neg (mainRun_noCrash hok), if_neg hq, if_pos hs]

theorem mainRun_listing_none {e : Env} (hok : EnvOK e)
    (hq : e.queueAnswer ≠ "") (hs : e.serverAnswer ≠ "")
    (hl : e.listing = none) :
    mainRun e =
      { promptedQueue := true, promptedServer := true,
        outcome := .aborted "Could not list printer drivers" } := by
  unfold mainRun
  rw [if_neg (mainRun_noCrash hok), if_neg hq, if_neg hs, hl]

theorem mainRun_manuf_empty {e : Env} {L : List String} (hok : EnvOK e)
    (hq : e.queueAnswer ≠ "") (hs : e.serverAnswer ≠ "")
    (hl : e.listing = some L) (hm : e.manufacturerAnswer = "") :
    mainRun e =
      { promptedQueue := true, promptedServer := true,
        promptedManufacturer := true,
        outcome := .aborted "No manufacturer selected or entered." } := by
  unfold mainRun
  rw [if_neg (mainRun_noCrash hok), if_neg hq, if_neg hs, hl]
  simp only []
  rw [if_neg (by simp [any_extract_false hok hl]), if_pos hm]

theorem mainRun_driver_empty {e : Env} {L : List String} (hok : EnvOK e)
    (hq : e.queueAnswer ≠ "") (hs : e.serverAnswer ≠ "")
    (hl : e.listing = some L) (hm : e.manufacturerAnswer ≠ "")
    (hd : e.driverAnswer = "") :
    mainRun e =
      { promptedQueue := true, promptedServer := true,
        promptedManufacturer := true, promptedDriver := true,
        outcome := .aborted "No driver selected or entered." } := by
  unfold mainRun
  rw [if_neg (mainRun_noCrash hok), if_neg hq, if_neg hs, hl]
  simp only []
  rw [if_neg (by simp [any_extract_false hok hl]), if_neg hm, if_pos hd]

theorem mainRun_validation {e : Env} {L : List String} (hok : EnvOK e)
    (hq : e.queueAnswer ≠ "") (hs : e.serverAnswer ≠ "")
    (hl : e.listing = some L) (hm : e.manufacturerAnswer ≠ "")
    (hd : e.driverAnswer ≠ "") (ht : technician_fullOf e = "") :
    mainRun e =
      { promptedQueue := true, promptedServer := true,
        promptedManufacturer := true, promptedDriver := true,
        outcome := .aborted "Operation cancelled or incomplete selection." } := by
  unfold mainRun
  rw [if_neg (mainRun_noCrash hok), if_neg hq, if_neg hs, hl]
  simp only []
  rw [if_neg (by simp [any_extract_false hok hl]), if_neg hm, if_neg hd,
    if_pos (Or.inl ht)]

theorem mainRun_gunzip_fail {e : Env} {L : List String} (hok : EnvOK e)
    (hq : e.queueAnswer ≠ "") (hs : e.serverAnswer ≠ "")
    (hl : e.listing = some L) (hm : e.manufacturerAnswer ≠ "")
    (hd : e.driverAnswer ≠ "") (ht : technician_fullOf e ≠ "")
    (hg : e.gunzipOk = false) :
    mainRun e =
      { promptedQueue := true, promptedServer := true,
        promptedManufacturer := true, promptedDriver := true,
        tempCreated := true,
        ppdDest := some (custom_dirOf e ++ "/" ++
          sanitized_driver_filenameS e.driverAnswer),
        outcome := .aborted "Could not decompress PPD" } := by
  unfold mainRun
  rw [if_neg (mainRun_noCrash hok), if_neg hq, if_neg hs, hl]
  simp only []
  rw [if_neg (by simp [any_extract_false hok hl]), if_neg hm, if_neg hd,
    if_neg (by simp [ht, hq, hs, hd, popup_ne_empty]), if_pos (by simp [hg])]

theorem mainRun_installer_fail {e : Env} {L : List String} (hok : EnvOK e)
    (hq : e.queueAnswer ≠ "") (hs : e.serverAnswer ≠ "")
    (hl : e.listing = some L) (hm : e.manufacturerAnswer ≠ "")
    (hd : e.driverAnswer ≠ "") (ht : technician_fullOf e ≠ "")
    (hg : e.gunzipOk = true) (hi : e.installerOk = false) :
    mainRun e =
      { promptedQueue := true, promptedServer := true,
        promptedManufacturer := true, promptedDriver := true,
        tempCreated := true,
        ppdDest := some (custom_dirOf e ++ "/" ++
          sanitized_driver_filenameS e.driverAnswer),
        outcome := .aborted "Installer.pkg not found in ~/Downloads/PharosDMG" } := by
  unfold mainRun
  rw [if_neg (mainRun_noCrash hok), if_neg hq, if_neg hs, hl]
  simp only []
  rw [if_neg (by simp [any_extract_false hok hl]), if_neg hm, if_neg hd,
    if_neg (by simp [ht, hq, hs, hd, popup_ne_empty]), if_neg (by simp [hg]),
    if_pos (by simp [hi])]

theorem mainRun_overwrite_declined {e : Env} {L : List String} (hok : EnvOK e)
    (hq : e.queueAnswer ≠ "") (hs : e.serverAnswer ≠ "")
    (hl : e.listing = some L) (hm : e.manufacturerAnswer ≠ "")
    (hd : e.driverAnswer ≠ "") (ht : technician_fullOf e ≠ "")
    (hg : e.gunzipOk = true) (hi : e.installerOk = true)
    (hx : e.dmgExists = true) (ho : e.overwriteYes = false) :
    mainRun e =
      { promptedQueue := true, promptedServer := true,
        promptedManufacturer := true, promptedDriver := true,
        promptedOverwrite := true, tempCreated := true,
        ppdDest := some (custom_dirOf e ++ "/" ++
          sanitized_driver_filenameS e.driverAnswer),
        installerCopied := true,
        installFilesWritten := some (custom_dirOf e ++ "/InstallFiles.txt",
          installFilesText (technician_fullOf e) e.date
            (sanitized_driver_filenameS e.driverAnswer)),
        postInstallWritten := some (custom_dirOf e ++ "/PostInstall.sh",
          postInstallText (technician_fullOf e) e.date
            (popup_nameS e.queueAnswer) e.serverAnswer
            (base_queueS e.queueAnswer)
            (sanitized_driver_filenameS e.driverAnswer)),
        outcome := .aborted "Operation cancelled by user." } := by
  unfold mainRun
  rw [if_neg (mainRun_noCrash hok), if_neg hq, if_neg hs, hl]
  simp only []
  rw [if_neg (by simp [any_extract_false hok hl]), if_neg hm, if_neg hd,
    if_neg (by simp [ht, hq, hs, hd, popup_ne_empty]), if_neg (by simp [hg]),
    if_neg (by simp [hi]), if_pos ⟨hx, by simp [ho]⟩]

/-- Complete shape analysis of a run: either nothing was staged and no DMG
was built, or all three staged artifacts carry the one sanitized driver
filename and the generated texts. -/
theorem mainRun_shape (e : Env) :
    ((mainRun e).installFilesWritten = none ∧
      (mainRun e).postInstallWritten = none ∧
      ∀ p, (mainRun e).outcome ≠ .built p) ∨
    ((mainRun e).ppdDest = some (custom_dirOf e ++ "/" ++
        sanitized_driver_filenameS e.driverAnswer) ∧
      (mainRun e).installFilesWritten =
        some (custom_dirOf e ++ "/InstallFiles.txt",
          installFilesText (technician_fullOf e) e.date
            (sanitized_driver_filenameS e.driverAnswer)) ∧
      (mainRun e).postInstallWritten =
        some (custom_dirOf e ++ "/PostInstall.sh",
          postInstallText (technician_fullOf e) e.date
            (popup_nameS e.queueAnswer) e.serverAnswer
            (base_queueS e.queueAnswer)
            (sanitized_driver_filenameS e.driverAnswer))) := by
  unfold mainRun
  by_cases hc : technician_fullOf e ≠ "" ∧
      get_first_nameL (technician_fullOf e).data = none
  · rw [if_pos hc]
    exact Or.inl ⟨rfl, rfl, fun p h => Outcome.noConfusion h⟩
  · rw [if_neg hc]
    by_cases hq : e.queueAnswer = ""
    · rw [if_pos hq]
      exact Or.inl ⟨rfl, rfl, fun p h => Outcome.noConfusion h⟩
    · rw [if_neg hq]
      by_cases hs : e.serverAnswer = ""
      · rw [if_pos hs]
        exact Or.inl ⟨rfl, rfl, fun p h => Outcome.noConfusion h⟩
      · rw [if_neg hs]
        cases hl : e.listing with
        | none => exact Or.inl ⟨rfl, rfl, fun p h => Outcome.noConfusion h⟩
        | some L =>
          simp only []
          by_cases hany : ((L.filter fun f => ".gz".data.isSuffixOf f.data).any
              fun f => (extractCore f.data).isNone) = true
          · rw [if_pos hany]
            exact Or.inl ⟨rfl, rfl, fun p h => Outcome.noConfusion h⟩
          · rw [if_neg hany]
            by_cases hm : e.manufacturerAnswer = ""
            · rw [if_pos hm]
              exact Or.inl ⟨rfl, rfl, fun p h => Outcome.noConfusion h⟩
            · rw [if_neg hm]
              by_cases hd : e.driverAnswer = ""
              · rw [if_pos hd]
                exact Or.inl ⟨rfl, rfl, fun p h => Outcome.noConfusion h⟩
              · rw [if_neg hd]
                by_cases hval : technician_fullOf e = "" ∨ e.queueAnswer = "" ∨
                    popup_nameS e.queueAnswer = "" ∨ e.driverAnswer = "" ∨
                    e.serverAnswer = ""
                · rw [if_pos hval]
                  exact Or.inl ⟨rfl, rfl, fun p h => Outcome.noConfusion h⟩
                · rw [if_neg hval]
                  by_cases hg : ¬ e.gunzipOk = true
                  · rw [if_pos hg]
                    exact Or.inl ⟨rfl, rfl, fun p h => Outcome.noConfusion h⟩
                  · rw [if_neg hg]
                    by_cases hi : ¬ e.installerOk = true
                    · rw [if_pos hi]
                      exact Or.inl ⟨rfl, rfl, fun p h => Outcome.noConfusion h⟩
                    · rw [if_neg hi]
                      by_cases hov : e.dmgExists = true ∧ ¬ e.overwriteYes = true
                      · rw [if_pos hov]
                        exact Or.inr ⟨rfl, rfl, rfl⟩
                      · rw [if_neg hov]
                        exact Or.inr ⟨rfl, rfl, rfl⟩

theorem mainRun_post_txt {e : Env} {p txt : String}
    (h : (mainRun e).postInstallWritten = some (p, txt)) :
    txt = postInstallText (technician_fullOf e) e.date (popup_nameS e.queueAnswer)
      e.serverAnswer (base_queueS e.queueAnswer)
      (sanitized_driver_filenameS e.driverAnswer) := by
  rcases mainRun_shape e with ⟨_, h2, _⟩ | ⟨_, _, h3⟩
  · rw [h2] at h
    exact absurd h (by simp)
  · rw [h3] at h
    simp only [Option.some.injEq, Prod.mk.injEq] at h
    exact h.2.symm

theorem mainRun_install_txt {e : Env} {p txt : String}
    (h : (mainRun e).installFilesWritten = some (p, txt)) :
    txt = installFilesText (technician_fullOf e) e.date
      (sanitized_driver_filenameS e.driverAnswer) := by
  rcases mainRun_shape e with ⟨h1, _, _⟩ | ⟨_, h2, _⟩
  · rw [h1] at h
    exact absurd h (by simp)
  · rw [h2] at h
    simp only [Option.some.injEq, Prod.mk.injEq] at h
    exact h.2.symm

theorem mainRun_built_staged {e : Env} {p : String}
    (h : (mainRun e).outcome = .built p) :
    (mainRun e).ppdDest = some (custom_dirOf e ++ "/" ++
      sanitized_driver_filenameS e.driverAnswer) ∧
    (mainRun e).installFilesWritten = some (custom_dirOf e ++ "/InstallFiles.txt",
      installFilesText (technician_fullOf e) e.date
        (sanitized_driver_filenameS e.driverAnswer)) ∧
    (mainRun e).postInstallWritten = some (custom_dirOf e ++ "/PostInstall.sh",
      postInstallText (technician_fullOf e) e.date (popup_nameS e.queueAnswer)
        e.serverAnswer (base_queueS e.queueAnswer)
        (sanitized_driver_filenameS e.driverAnswer)) := by
  rcases mainRun_shape e with ⟨_, _, h3⟩ | hst
  · exact absurd h (h3 p)
  · exact hst

/-! ### Concrete environments used by the claim theorems below -/

def c2cEnv : Env :=
  { techLines := none, pkgLines := none, srvLines := none,
    listing := some ["Xerox.gz"], techAnswer := "",
    queueAnswer := "Q1.dmg", serverAnswer := "ps1.ohio.edu",
    manufacturerAnswer := "Xerox", driverAnswer := "Xerox",
    gunzipOk := true, installerOk := true, dmgExists := false,
    overwriteYes := false, hdiutilOk := true, date := "01/02/2026" }

def c2wEnv : Env :=
  { techLines := none, pkgLines := none, srvLines := none,
    listing := some ["HP.gz"], techAnswer := "Mike Croucher",
    queueAnswer := "", serverAnswer := "ps1.ohio.edu",
    manufacturerAnswer := "HP", driverAnswer := "HP LaserJet",
    gunzipOk := true, installerOk := true, dmgExists := false,
    overwriteYes := false, hdiutilOk := true, date := "01/02/2026" }

def c7Env : Env :=
  { techLines := none, pkgLines := none, srvLines := none,
    listing := some ["HP.gz"], techAnswer := "Mike Croucher",
    queueAnswer := "Q1.dmg", serverAnswer := "ps1.ohio.edu",
    manufacturerAnswer := "HP", driverAnswer := "HP LaserJet",
    gunzipOk := true, installerOk := true, dmgExists := true,
    overwriteYes := false, hdiutilOk := true, date := "01/02/2026" }

def c9Env : Env :=
  { techLines := none, pkgLines := none, srvLines := none,
    listing := some ["HP.gz"], techAnswer := "Mike Croucher",
    queueAnswer := "Q1.dmg", serverAnswer := "ps1.ohio.edu",
    manufacturerAnswer := "HP", driverAnswer := "HP LaserJet",
    gunzipOk := true, installerOk := true, dmgExists := false,
    overwriteYes := false, hdiutilOk := true, date := "01/02/2026" }

def c1Env : Env :=
  { techLines := none, pkgLines := none, srvLines := none,
    listing := some ["HP.gz"], techAnswer := "Mike Croucher",
    queueAnswer := "PRINTQ1.dmg", serverAnswer := "ps1.ohio.edu",
    manufacturerAnswer := "HP", driverAnswer := "HP LaserJet 600",
    gunzipOk := true, installerOk := true, dmgExists := false,
    overwriteYes := false, hdiutilOk := true, date := "01/02/2026" }

/-! ### Claim theorems for the workflow -/

/-- C1: in every run that generates them, `Custom/PostInstall.sh` has
exactly one operative (non-empty, non-comment) line, namely
`lpadmin -p <popupName> -v popup://<server>/<baseQueue> -E -P
<sanitizedDriverFilename>`, and `Custom/InstallFiles.txt` has exactly one
operative line, the absolute target `/etc/cups/ppd/<sanitizedDriverFilename>`,
annotated with a comment line carrying the technician's internal name and
the current date; the date formatter (modelled from the spec) renders
`MM/DD/YYYY`. -/
theorem C1_artifacts :
    (∀ e : Env, NoNL e.queueAnswer → NoNL e.serverAnswer →
      NoNL e.driverAnswer → NoNL e.date → NoNL (technician_fullOf e) →
      (∀ p txt, (mainRun e).postInstallWritten = some (p, txt) →
        operativeLines txt =
          ["lpadmin -p ".data ++ ((popup_nameS e.queueAnswer).data ++
            (" -v popup://".data ++ (e.serverAnswer.data ++ ("/".data ++
              ((base_queueS e.queueAnswer).data ++ (" -E -P ".data ++
                (sanitized_driver_filenameS e.driverAnswer).data))))))]) ∧
      (∀ p txt, (mainRun e).installFilesWritten = some (p, txt) →
        operativeLines txt =
          ["/etc/cups/ppd/".data ++
            (sanitized_driver_filenameS e.driverAnswer).data] ∧
        ("# ".data ++ ((technician_fullOf e).data ++
            (" -- ".data ++ e.date.data))) ∈
          pySplitOnChar '\n' txt.data)) ∧
    (∀ m d y : Nat, m ≤ 12 → d ≤ 31 → y ≤ 9999 →
      isMMDDYYYY (strftimeMDY m d y) = true) := by
  constructor
  · intro e h1 h2 h3 h4 h5
    constructor
    · intro p txt hw
      rw [mainRun_post_txt hw]
      unfold operativeLines
      rw [postInstall_lines _ _ _ _ _ _ h5 h4 (noNL_popup h1) h2 (noNL_base h1)
        (noNL_sanitized h3)]
      simp [List.filter_cons, isOperative_cons, isOperative_nil]
    · intro p txt hw
      rw [mainRun_install_txt hw]
      refine ⟨?_, ?_⟩
      · unfold operativeLines
        rw [installFiles_lines _ _ _ h5 h4 (noNL_sanitized h3)]
        simp [List.filter_cons, isOperative_cons, isOperative_nil]
      · rw [installFiles_lines _ _ _ h5 h4 (noNL_sanitized h3)]
        simp
  · intro m d y _ _ _
    exact strftime_shape m d y

theorem C1_artifacts_witness :
    (NoNL c1Env.queueAnswer ∧ NoNL c1Env.serverAnswer ∧
      NoNL c1Env.driverAnswer ∧ NoNL c1Env.date ∧
      NoNL (technician_fullOf c1Env)) ∧
    operativeLines (postInstallText (technician_fullOf c1Env) c1Env.date
        (popup_nameS c1Env.queueAnswer) c1Env.serverAnswer
        (base_queueS c1Env.queueAnswer)
        (sanitized_driver_filenameS c1Env.driverAnswer)) =
      ["lpadmin -p ".data ++ ((popup_nameS c1Env.queueAnswer).data ++
        (" -v popup://".data ++ (c1Env.serverAnswer.data ++ ("/".data ++
          ((base_queueS c1Env.queueAnswer).data ++ (" -E -P ".data ++
            (sanitized_driver_filenameS c1Env.driverAnswer).data))))))] :=
  ⟨⟨by decide, by decide, by decide, by decide, by decide⟩,
    (C1_artifacts.1 c1Env (by decide) (by decide) (by decide) (by decide)
      (by decide)).1 (custom_dirOf c1Env ++ "/PostInstall.sh") _ rfl⟩

/-- C2 counterexample: with the technician selection cancelled (empty) but
every later selection valid, the run does not terminate at the technician
step: the queue, server, manufacturer and driver prompts all still run, and
the run is only aborted by the validation check after the driver prompt. -/
theorem C2_counterexample :
    c2cEnv.techAnswer = "" ∧
    (mainRun c2cEnv).promptedQueue = true ∧
    (mainRun c2cEnv).promptedServer = true ∧
    (mainRun c2cEnv).promptedManufacturer = true ∧
    (mainRun c2cEnv).promptedDriver = true ∧
    (mainRun c2cEnv).outcome =
      .aborted "Operation cancelled or incomplete selection." ∧
    (mainRun c2cEnv).tempCreated = false ∧
    (mainRun c2cEnv).installFilesWritten = none ∧
    (mainRun c2cEnv).postInstallWritten = none := by
  decide

/-- C2 amended: cancelling or emptying the queue, server, manufacturer or
driver selection terminates the run immediately at that step with the
corresponding reported error; an empty technician answer resolves to an
empty internal name but is detected only at the validation step after the
driver prompt (the intermediate prompts still run — see the
counterexample); in every such case no temp directory is created, no PPD is
staged, no InstallFiles.txt or PostInstall.sh is written, the installer is
not copied, and the image builder is never invoked. -/
theorem C2_abort_amended (e : Env) (hok : EnvOK e) :
    (e.queueAnswer = "" →
      mainRun e =
        { promptedQueue := true,
          outcome := .aborted "No queue/package selected or entered." }) ∧
    (e.queueAnswer ≠ "" → e.serverAnswer = "" →
      mainRun e =
        { promptedQueue := true, promptedServer := true,
          outcome := .aborted "No server selected or entered." }) ∧
    (∀ L, e.queueAnswer ≠ "" → e.serverAnswer ≠ "" → e.listing = some L →
      e.manufacturerAnswer = "" →
      mainRun e =
        { promptedQueue := true, promptedServer := true,
          promptedManufacturer := true,
          outcome := .aborted "No manufacturer selected or entered." }) ∧
    (∀ L, e.queueAnswer ≠ "" → e.serverAnswer ≠ "" → e.listing = some L →
      e.manufacturerAnswer ≠ "" → e.driverAnswer = "" →
      mainRun e =
        { promptedQueue := true, promptedServer := true,
          promptedManufacturer := true, promptedDriver := true,
          outcome := .aborted "No driver selected or entered." }) ∧
    (e.techAnswer = "" → technician_fullOf e = "") ∧
    ((technician_fullOf e = "" ∨ e.queueAnswer = "" ∨ e.serverAnswer = "" ∨
        e.manufacturerAnswer = "" ∨ e.driverAnswer = "") →
      (mainRun e).tempCreated = false ∧ (mainRun e).ppdDest = none ∧
      (mainRun e).installFilesWritten = none ∧
      (mainRun e).postInstallWritten = none ∧
      (mainRun e).installerCopied = false ∧
      (mainRun e).hdiutilInvoked = false ∧
      ∃ msg, (mainRun e).outcome = .aborted msg) := by
  refine ⟨fun hq => mainRun_queue_empty hok hq,
    fun hq hs => mainRun_server_empty hok hq hs,
    fun L hq hs hl hm => mainRun_manuf_empty hok hq hs hl hm,
    fun L hq hs hl hm hd => mainRun_driver_empty hok hq hs hl hm hd,
    technician_fullOf_empty e, ?_⟩
  intro hdisj
  by_cases hq : e.queueAnswer = ""
  · rw [mainRun_queue_empty hok hq]
    exact ⟨rfl, rfl, rfl, rfl, rfl, rfl, _, rfl⟩
  · by_cases hs : e.serverAnswer = ""
    · rw [mainRun_server_empty hok hq hs]
      exact ⟨rfl, rfl, rfl, rfl, rfl, rfl, _, rfl⟩
    · cases hl : e.listing with
      | none =>
        rw [mainRun_listing_none hok hq hs hl]
        exact ⟨rfl, rfl, rfl, rfl, rfl, rfl, _, rfl⟩
      | some L =>
        by_cases hm : e.manufacturerAnswer = ""
        · rw [mainRun_manuf_empty hok hq hs hl hm]
          exact ⟨rfl, rfl, rfl, rfl, rfl, rfl, _, rfl⟩
        · by_cases hd : e.driverAnswer = ""
          · rw [mainRun_driver_empty hok hq hs hl hm hd]
            exact ⟨rfl, rfl, rfl, rfl, rfl, rfl, _, rfl⟩
          · have ht : technician_fullOf e = "" := by
              rcases hdisj with h | h | h | h | h
              · exact h
              · exact absurd h hq
              · exact absurd h hs
              · exact absurd h hm
              · exact absurd h hd
            rw [mainRun_validation hok hq hs hl hm hd ht]
            exact ⟨rfl, rfl, rfl, rfl, rfl, rfl, _, rfl⟩

theorem C2_abort_amended_witness :
    EnvOK c2wEnv ∧ c2wEnv.queueAnswer = "" ∧
    mainRun c2wEnv =
      { promptedQueue := true,
        outcome := .aborted "No queue/package selected or entered." } :=
  ⟨by decide, rfl, (C2_abort_amended c2wEnv (by decide)).1 rfl⟩

/-- C7: when the destination DMG already exists and the operator declines
the overwrite, the run terminates with a clean reported abort and the image
builder is never invoked — in this model only the builder touches the
output path, so the existing file's contents and modification state are
unchanged; a run that actually reaches the overwrite prompt ends with
exactly the "cancelled by user" abort. -/
theorem C7_overwrite_declined (e : Env) (hok : EnvOK e)
    (hx : e.dmgExists = true) (ho : e.overwriteYes = false) :
    (mainRun e).hdiutilInvoked = false ∧
    (∃ msg, (mainRun e).outcome = .aborted msg) ∧
    ((mainRun e).promptedOverwrite = true →
      (mainRun e).outcome = .aborted "Operation cancelled by user.") := by
  by_cases hq : e.queueAnswer = ""
  · rw [mainRun_queue_empty hok hq]
    refine ⟨rfl, ⟨_, rfl⟩, ?_⟩
    intro hcon
    simp at hcon
  · by_cases hs : e.serverAnswer = ""
    · rw [mainRun_server_empty hok hq hs]
      refine ⟨rfl, ⟨_, rfl⟩, ?_⟩
      intro hcon
      simp at hcon
    · cases hl : e.listing with
      | none =>
        rw [mainRun_listing_none hok hq hs hl]
        refine ⟨rfl, ⟨_, rfl⟩, ?_⟩
        intro hcon
        simp at hcon
      | some L =>
        by_cases hm : e.manufacturerAnswer = ""
        · rw [mainRun_manuf_empty hok hq hs hl hm]
          refine ⟨rfl, ⟨_, rfl⟩, ?_⟩
          intro hcon
          simp at hcon
        · by_cases hd : e.driverAnswer = ""
          · rw [mainRun_driver_empty hok hq hs hl hm hd]
            refine ⟨rfl, ⟨_, rfl⟩, ?_⟩
            intro hcon
            simp at hcon
          · by_cases ht : technician_fullOf e = ""
            · rw [mainRun_validation hok hq hs hl hm hd ht]
              refine ⟨rfl, ⟨_, rfl⟩, ?_⟩
              intro hcon
              simp at hcon
            · cases hg : e.gunzipOk with
              | false =>
                rw [mainRun_gunzip_fail hok hq hs hl hm hd ht hg]
                refine ⟨rfl, ⟨_, rfl⟩, ?_⟩
                intro hcon
                simp at hcon
              | true =>
                cases hi : e.installerOk with
                | false =>
                  rw [mainRun_installer_fail hok hq hs hl hm hd ht hg hi]
                  refine ⟨rfl, ⟨_, rfl⟩, ?_⟩
                  intro hcon
                  simp at hcon
                | true =>
                  rw [mainRun_overwrite_declined hok hq hs hl hm hd ht hg hi hx ho]
                  exact ⟨rfl, ⟨_, rfl⟩, fun _ => rfl⟩

theorem C7_overwrite_declined_witness :
    EnvOK c7Env ∧ c7Env.dmgExists = true ∧ c7Env.overwriteYes = false ∧
    ((mainRun c7Env).hdiutilInvoked = false ∧
      (∃ msg, (mainRun c7Env).outcome = .aborted msg) ∧
      ((mainRun c7Env).promptedOverwrite = true →
        (mainRun c7Env).outcome = .aborted "Operation cancelled by user.")) :=
  ⟨by decide, rfl, rfl, C7_overwrite_declined c7Env (by decide) rfl rfl⟩

/-- C9: name derivation is a pure function of the selection set, and in
every completed (DMG-built) run a single sanitized filename is shared by
the staged PPD's destination path inside `Custom/`, the
`/etc/cups/ppd/` target written to InstallFiles.txt, and the `-P` argument
of the lpadmin line written to PostInstall.sh. -/
theorem C9_name_consistency :
    (∀ s t : SelectionSet, s = t → deriveNames s = deriveNames t) ∧
    (∀ (e : Env) (p : String), (mainRun e).outcome = .built p →
      ∃ n : String,
        (mainRun e).ppdDest = some (custom_dirOf e ++ "/" ++ n) ∧
        (mainRun e).installFilesWritten =
          some (custom_dirOf e ++ "/InstallFiles.txt",
            installFilesText (technician_fullOf e) e.date n) ∧
        (mainRun e).postInstallWritten =
          some (custom_dirOf e ++ "/PostInstall.sh",
            postInstallText (technician_fullOf e) e.date
              (popup_nameS e.queueAnswer) e.serverAnswer
              (base_queueS e.queueAnswer) n)) := by
  constructor
  · intro s t h
    rw [h]
  · intro e p h
    obtain ⟨h1, h2, h3⟩ := mainRun_built_staged h
    exact ⟨sanitized_driver_filenameS e.driverAnswer, h1, h2, h3⟩

theorem C9_name_consistency_witness :
    (mainRun c9Env).outcome = .built (dmg_pathOf c9Env) ∧
    ∃ n : String,
      (mainRun c9Env).ppdDest = some (custom_dirOf c9Env ++ "/" ++ n) ∧
      (mainRun c9Env).installFilesWritten =
        some (custom_dirOf c9Env ++ "/InstallFiles.txt",
          installFilesText (technician_fullOf c9Env) c9Env.date n) ∧
      (mainRun c9Env).postInstallWritten =
        some (custom_dirOf c9Env ++ "/PostInstall.sh",
          postInstallText (technician_fullOf c9Env) c9Env.date
            (popup_nameS c9Env.queueAnswer) c9Env.serverAnswer
            (base_queueS c9Env.queueAnswer) n) :=
  ⟨by decide, C9_name_consistency.2 c9Env (dmg_pathOf c9Env) (by decide)⟩

end Pharos
